import Mathlib

/-! Shallow embedding of the OpenVINO image-classifier DLL
(`src/OpenVINO_Image_Classifier_DLL/OpenVINO_Image_Classifier_DLL/dllmain.cpp`).

The OpenVINO runtime is external to the repository, so it is modelled as an
oracle: a `Runtime` records the devices it reports and the outcomes of
`read_model`, `reshape` and `compile_model`, and a `CompiledModel` records the
shapes and the forward pass of a compiled model.  A call that may throw a C++
exception is modelled as returning `Option`/`Except`: `none` (resp.
`Except.error ()`) stands for a thrown exception.  `float` arithmetic is
modelled by exact rationals and `uchar` pixel data by naturals. -/

namespace DLL

/-- A parsed, not-yet-compiled model (the global
`std::shared_ptr<ov::Model> model`), kept abstract. -/
structure OVModel where
  mid : Nat
deriving DecidableEq

/-- A device-bound compiled model together with the infer request created from
it (`ov::CompiledModel` / `ov::InferRequest`): the shape reported by
`compiled_model.output()`, the shape of the input tensor obtained from
`infer_request.get_input_tensor(0)`, and the forward pass mapping the contents
of the input tensor to the output logits (`none` models a throw during
`infer()` or output extraction). -/
structure CompiledModel where
  outputShape : List Nat
  inputShape : List Nat
  run : List ℚ → Option (List ℚ)

/-- The external inference runtime (`ov::Core core`), as an oracle. -/
structure Runtime where
  devices : List String
  readModel : String → Option OVModel
  reshape : OVModel → List Int → Option OVModel
  compile : OVModel → String → Option CompiledModel

/-- The module-wide mutable state of `dllmain.cpp`: the globals
`available_devices`, `infer_request` (bundled with the compiled model it was
created from; `none` before the first successful load), the contents of the
input tensor reached through the cached pointer `input_data`, and the cached
`num_classes`, `input_w`, `input_h`, `nPixels`, `num_channels`. -/
structure DLLState where
  available_devices : List String
  infer_request : Option CompiledModel
  input_data : List ℚ
  num_classes : Nat
  input_w : Nat
  input_h : Nat
  nPixels : Nat
  num_channels : Nat

/-- Does the pattern occur at the head of the list?  (Helper for
`std::string::find`.) -/
def startsWith : List Char → List Char → Bool
  | [], _ => true
  | _ :: _, [] => false
  | p :: ps, c :: cs => p == c && startsWith ps cs

/-- `s.find(pat) != std::string::npos`: does `pat` occur as a contiguous
substring of the character list? -/
def containsSub (pat : List Char) : List Char → Bool
  | [] => pat.isEmpty
  | c :: cs => startsWith pat (c :: cs) || containsSub pat cs

/-- The filtered accelerator identifier (`"GNA"`). -/
def gna : List Char := ['G', 'N', 'A']

/-- `device.find("GNA") != std::string::npos`. -/
def hasGNA (dev : String) : Bool := containsSub gna dev.data

/-- `GetDeviceCount` (dllmain.cpp lines 41–55): clears `available_devices`,
pushes every runtime device whose name does not contain `"GNA"`, in order,
and returns the size of the list. -/
def GetDeviceCount (rt : Runtime) (s : DLLState) : Nat × DLLState :=
  let devs := rt.devices.filter (fun d => !hasGNA d)
  (devs.length, { s with available_devices := devs })

/-- The empty string (the value an out-of-range read is defaulted to in this
model; in the C++ an out-of-range `std::vector` access is undefined). -/
def emptyStr : String := ""

/-- `GetDeviceName` (dllmain.cpp lines 62–64): returns
`&available_devices[index]`. -/
def GetDeviceName (s : DLLState) (index : Nat) : String :=
  s.available_devices.getD index emptyStr

/-- The guarded reshape block of `LoadModel` (lines 86–89):
`try { model->reshape({1, 3, inputDims[1], inputDims[0]}); }
catch (...) { return_val = 2; }`.  Returns the eventual status together with
the model that flows into compilation (the reshaped model on success, the
unchanged original on a throw).  `inputDims = (width, height)`. -/
def reshapeStep (rt : Runtime) (model : OVModel) (inputDims : Int × Int) :
    Int × OVModel :=
  match rt.reshape model [1, 3, inputDims.2, inputDims.1] with
  | some m => (0, m)
  | none => (2, model)

/-- `LoadModel` (dllmain.cpp lines 74–116).  `read_model` failure is caught
and returns 1; `reshape` failure is caught and sets the eventual status to 2;
`compile_model` (and the subsequent query/request steps it feeds) is NOT
guarded by any `try`, so its failure propagates as `Except.error ()`.
On success the state caches the compiled model's output-class count
(`output.get_shape()[1]`), the input tensor's width (`get_shape()[3]`),
height (`get_shape()[2]`), their product `nPixels`, a fresh input-tensor
buffer, and the new infer request. -/
def LoadModel (rt : Runtime) (s : DLLState) (modelPath : String) (index : Nat)
    (inputDims : Int × Int) : Except Unit (Int × DLLState) :=
  match rt.readModel modelPath with
  | none => Except.ok (1, s)
  | some model =>
    let rs := reshapeStep rt model inputDims
    match rt.compile rs.2 (s.available_devices.getD index emptyStr) with
    | none => Except.error ()
    | some cm =>
      Except.ok (rs.1,
        { s with
          infer_request := some cm
          num_classes := cm.outputShape.getD 1 0
          input_w := cm.inputShape.getD 3 0
          input_h := cm.inputShape.getD 2 0
          nPixels := cm.inputShape.getD 3 0 * cm.inputShape.getD 2 0
          input_data :=
            List.replicate (cm.inputShape.foldl (fun a b => a * b) 1) 0 })

/-- `cv::cvtColor(texture, texture, cv::COLOR_RGBA2RGB)` on an
`nPix`-pixel RGBA byte buffer: the resulting interleaved RGB buffer has
`rgb[p*3+c] = frame[p*4+c]` for `p < nPix`, `c < 3`. -/
def rgbaToRgb (frame : List Nat) (nPix : Nat) : List Nat :=
  (List.range (nPix * 3)).map (fun i => frame.getD (i / 3 * 4 + i % 3) 0)

/-- The inner channel loop of `PerformInference` (lines 138–140): for
`ch = 0 .. nCh-1`, `input_data[ch * nPixels + p] = texture.data[p * num_channels + ch] / 255.0f`. -/
def chLoop (rgb : List Nat) (nPix nCh p : Nat) (buf : List ℚ) : List ℚ :=
  (List.range nCh).foldl
    (fun b ch => b.set (ch * nPix + p) ((rgb.getD (p * nCh + ch) 0 : ℚ) / 255))
    buf

/-- The pixel loop of `PerformInference` (lines 136–141). -/
def normLoop (rgb : List Nat) (nPix nCh : Nat) (buf : List ℚ) : List ℚ :=
  (List.range nPix).foldl (fun b p => chLoop rgb nPix nCh p b) buf

/-- `std::max_element` walk: keeps the current best index/value, replacing
them only on a strictly larger element (`i` is the index of the head of the
remaining list). -/
def maxElementAux : List ℚ → Nat → ℚ → Nat → Nat
  | [], bi, _, _ => bi
  | v :: rest, bi, bv, i =>
    if bv < v then maxElementAux rest i v (i + 1)
    else maxElementAux rest bi bv (i + 1)

/-- `std::distance(out_data, std::max_element(out_data, out_data + n))`:
the index of the first maximal element; `0` on an empty range (first == last). -/
def maxElementIdx : List ℚ → Nat
  | [] => 0
  | v :: rest => maxElementAux rest 0 v 1

/-- `PerformInference` (dllmain.cpp lines 123–160).  The whole body is inside
`try { ... } catch (...) { class_idx = -2; }`.  The RGBA frame is converted to
RGB, normalized and transposed into the input-tensor buffer (these writes
happen before the forward pass, so they persist even when `infer()` throws),
then the forward pass runs and the first-maximum index over the first
`num_classes` logits is returned.  A throw (no loaded request, or a failing
forward pass) yields `-2`. -/
def PerformInference (s : DLLState) (inputData : List Nat) : Int × DLLState :=
  let texture := rgbaToRgb inputData s.nPixels
  let newInput := normLoop texture s.nPixels s.num_channels s.input_data
  let s1 := { s with input_data := newInput }
  match s.infer_request with
  | none => (-2, s1)
  | some cm =>
    match cm.run newInput with
    | none => (-2, s1)
    | some out_data => ((maxElementIdx (out_data.take s.num_classes) : Int), s1)

/-- `chLoop` with the iteration count `m` split from the channel stride `nCh`
(the code uses `num_channels` for both); `chLoop = chLoopN` at `m = nCh`.
This split is what the induction on the loop recurs over. -/
def chLoopN (rgb : List Nat) (nPix nCh p m : Nat) (buf : List ℚ) : List ℚ :=
  (List.range m).foldl
    (fun b ch => b.set (ch * nPix + p) ((rgb.getD (p * nCh + ch) 0 : ℚ) / 255))
    buf

/-- `normLoop` with the iteration count `m` split from the pixel stride
`nPix`; `normLoop = normLoopN` at `m = nPix`. -/
def normLoopN (rgb : List Nat) (nPix nCh m : Nat) (buf : List ℚ) : List ℚ :=
  (List.range m).foldl (fun b p => chLoop rgb nPix nCh p b) buf

/-! Concrete fixtures used by the witness and counterexample theorems. -/

/-- A device name, as the runtime would report it. -/
def devCPU : String := "CPU"

/-- A model path fed to `LoadModel` in witnesses. -/
def pathW : String := "model.xml"

/-- The abstract parsed model the witness runtimes hand out. -/
def mW : OVModel := ⟨0⟩

/-- A compiled stub model: 1×1 input, 3 classes, forward pass constantly the
tie vector `[0.5, 0.5, 0.5]`. -/
def cmTie : CompiledModel := ⟨[1, 3], [1, 3, 1, 1], fun _ => some [1/2, 1/2, 1/2]⟩

/-- A compiled stub model whose forward pass always throws. -/
def cmFail : CompiledModel := ⟨[1, 3], [1, 3, 1, 1], fun _ => none⟩

/-- A compiled stub model with output logits `[2, 1]`. -/
def cmTwo : CompiledModel := ⟨[1, 2], [1, 3, 1, 1], fun _ => some [2, 1]⟩

/-- A runtime on which parse, reshape and compile all succeed. -/
def rtOk : Runtime := ⟨[devCPU], fun _ => some mW, fun m _ => some m, fun _ _ => some cmTie⟩

/-- A runtime on which `read_model` throws. -/
def rtParseFail : Runtime := ⟨[devCPU], fun _ => none, fun m _ => some m, fun _ _ => some cmTie⟩

/-- A runtime on which `reshape` throws but parse and compile succeed. -/
def rtReshapeFail : Runtime := ⟨[devCPU], fun _ => some mW, fun _ _ => none, fun _ _ => some cmTie⟩

/-- A runtime on which `compile_model` throws. -/
def rtCompileFail : Runtime := ⟨[devCPU], fun _ => some mW, fun m _ => some m, fun _ _ => none⟩

/-- A runtime reporting a device list that contains a GNA device. -/
def rtDevs : Runtime :=
  ⟨["CPU", "GNA", "GPU.0"], fun _ => some mW, fun m _ => some m, fun _ _ => some cmTie⟩

/-- The module state at process start (no model loaded yet), after one
device enumeration. -/
def sInit : DLLState := ⟨[devCPU], none, [], 0, 0, 0, 0, 3⟩

/-- Module state after loading the 1×1-input 3-class tie model. -/
def sTie : DLLState := ⟨[devCPU], some cmTie, [0, 0, 0], 3, 1, 1, 1, 3⟩

/-- Module state whose loaded model's forward pass always throws. -/
def sFailRun : DLLState := ⟨[devCPU], some cmFail, [0, 0, 0], 3, 1, 1, 1, 3⟩

/-- Module state with class count 0 but a succeeding forward pass. -/
def sZeroC : DLLState := ⟨[devCPU], some cmTwo, [0, 0, 0], 0, 1, 1, 1, 3⟩

/-- A one-pixel RGBA frame. -/
def frameW : List Nat := [10, 20, 30, 40]

/-- A solid white one-pixel RGBA frame. -/
def frameSolid : List Nat := [255, 255, 255, 255]

/-- `frameW` with a different alpha byte and identical RGB bytes. -/
def frameAlpha : List Nat := [10, 20, 30, 200]

/-! Helper lemmas. -/

theorem getD_set_self (l : List ℚ) (i : Nat) (a d : ℚ) (h : i < l.length) :
    (l.set i a).getD i d = a := by
  rw [List.getD_eq_getElem?_getD, List.getElem?_set_self h]
  rfl

theorem getD_set_ne (l : List ℚ) (i j : Nat) (a d : ℚ) (h : i ≠ j) :
    (l.set i a).getD j d = l.getD j d := by
  rw [List.getD_eq_getElem?_getD, List.getElem?_set_ne h, ← List.getD_eq_getElem?_getD]

theorem getD_map_range {α : Type} (f : Nat → α) (n i : Nat) (d : α) (h : i < n) :
    ((List.range n).map f).getD i d = f i := by
  rw [List.getD_eq_getElem?_getD, List.getElem?_map, List.getElem?_range h]
  rfl

theorem chLoopN_succ (rgb : List Nat) (nPix nCh p m : Nat) (buf : List ℚ) :
    chLoopN rgb nPix nCh p (m + 1) buf
      = (chLoopN rgb nPix nCh p m buf).set (m * nPix + p)
          ((rgb.getD (p * nCh + m) 0 : ℚ) / 255) := by
  unfold chLoopN
  rw [List.range_succ, List.foldl_append]
  rfl

theorem chLoopN_length (rgb : List Nat) (nPix nCh p m : Nat) (buf : List ℚ) :
    (chLoopN rgb nPix nCh p m buf).length = buf.length := by
  induction m with
  | zero => rfl
  | succ k ih => rw [chLoopN_succ, List.length_set, ih]

theorem chLoopN_getD_ne (rgb : List Nat) (nPix nCh p m : Nat) (buf : List ℚ)
    (idx : Nat) (d : ℚ) (h : ∀ ch < m, idx ≠ ch * nPix + p) :
    (chLoopN rgb nPix nCh p m buf).getD idx d = buf.getD idx d := by
  induction m with
  | zero => rfl
  | succ k ih =>
    rw [chLoopN_succ, getD_set_ne _ _ _ _ _ (fun e => h k (Nat.lt_succ_self k) e.symm)]
    exact ih (fun ch hch => h ch (Nat.lt_succ_of_lt hch))

theorem chLoopN_getD_hit (rgb : List Nat) (nPix nCh p m ch : Nat) (buf : List ℚ)
    (d : ℚ) (hch : ch < m) (hpix : p < nPix) (hlen : ch * nPix + p < buf.length) :
    (chLoopN rgb nPix nCh p m buf).getD (ch * nPix + p) d
      = (rgb.getD (p * nCh + ch) 0 : ℚ) / 255 := by
  induction m with
  | zero => exact absurd hch (Nat.not_lt_zero ch)
  | succ k ih =>
    rw [chLoopN_succ]
    rcases Nat.lt_or_ge ch k with hlt | hge
    · have hne : k * nPix + p ≠ ch * nPix + p := by
        have : ch * nPix < k * nPix :=
          Nat.mul_lt_mul_of_lt_of_le hlt (Nat.le_refl nPix) (Nat.lt_of_le_of_lt (Nat.zero_le p) hpix)
        omega
      rw [getD_set_ne _ _ _ _ _ hne]
      exact ih hlt
    · have hk : ch = k := Nat.le_antisymm (Nat.lt_succ_iff.mp hch) hge
      subst hk
      have : ch * nPix + p < (chLoopN rgb nPix nCh p ch buf).length := by
        rw [chLoopN_length]; exact hlen
      rw [getD_set_self _ _ _ _ this]

theorem chLoop_length (rgb : List Nat) (nPix nCh p : Nat) (buf : List ℚ) :
    (chLoop rgb nPix nCh p buf).length = buf.length :=
  chLoopN_length rgb nPix nCh p nCh buf

theorem normLoopN_succ (rgb : List Nat) (nPix nCh m : Nat) (buf : List ℚ) :
    normLoopN rgb nPix nCh (m + 1) buf
      = chLoop rgb nPix nCh m (normLoopN rgb nPix nCh m buf) := by
  unfold normLoopN
  rw [List.range_succ, List.foldl_append]
  rfl

theorem normLoopN_length (rgb : List Nat) (nPix nCh m : Nat) (buf : List ℚ) :
    (normLoopN rgb nPix nCh m buf).length = buf.length := by
  induction m with
  | zero => rfl
  | succ k ih => rw [normLoopN_succ, chLoop_length, ih]

theorem normLoopN_getD (rgb : List Nat) (nPix nCh m p ch : Nat) (buf : List ℚ)
    (d : ℚ) (hm : m ≤ nPix) (hp : p < m) (hch : ch < nCh)
    (hlen : ch * nPix + p < buf.length) :
    (normLoopN rgb nPix nCh m buf).getD (ch * nPix + p) d
      = (rgb.getD (p * nCh + ch) 0 : ℚ) / 255 := by
  induction m with
  | zero => exact absurd hp (Nat.not_lt_zero p)
  | succ k ih =>
    rw [normLoopN_succ]
    rcases Nat.lt_or_ge p k with hlt | hge
    · have hne : ∀ ch2 < nCh, ch * nPix + p ≠ ch2 * nPix + k := by
        intro ch2 _ heq
        have h1 : (ch * nPix + p) % nPix = p := by
          rw [Nat.add_comm, Nat.add_mul_mod_self_right]
          exact Nat.mod_eq_of_lt (Nat.lt_of_lt_of_le hlt (Nat.le_of_succ_le hm))
        have h2 : (ch2 * nPix + k) % nPix = k := by
          rw [Nat.add_comm, Nat.add_mul_mod_self_right]
          exact Nat.mod_eq_of_lt (Nat.lt_of_succ_le hm)
        rw [heq, h2] at h1
        exact absurd h1.symm (Nat.ne_of_lt hlt)
      calc (chLoop rgb nPix nCh k (normLoopN rgb nPix nCh k buf)).getD (ch * nPix + p) d
          = (normLoopN rgb nPix nCh k buf).getD (ch * nPix + p) d :=
            chLoopN_getD_ne rgb nPix nCh k nCh _ _ d hne
        _ = (rgb.getD (p * nCh + ch) 0 : ℚ) / 255 :=
            ih (Nat.le_of_succ_le hm) hlt
    · have hk : p = k := Nat.le_antisymm (Nat.lt_succ_iff.mp hp) hge
      subst hk
      have hlen2 : ch * nPix + p < (normLoopN rgb nPix nCh p buf).length := by
        rw [normLoopN_length]; exact hlen
      exact chLoopN_getD_hit rgb nPix nCh p nCh ch _ d hch
        (Nat.lt_of_succ_le hm) hlen2

theorem normLoop_getD (rgb : List Nat) (nPix nCh p ch : Nat) (buf : List ℚ)
    (d : ℚ) (hp : p < nPix) (hch : ch < nCh) (hlen : ch * nPix + p < buf.length) :
    (normLoop rgb nPix nCh buf).getD (ch * nPix + p) d
      = (rgb.getD (p * nCh + ch) 0 : ℚ) / 255 :=
  normLoopN_getD rgb nPix nCh nPix p ch buf d (Nat.le_refl nPix) hp hch hlen

theorem rgbaToRgb_getD (frame : List Nat) (nPix p c : Nat) (hp : p < nPix)
    (hc : c < 3) :
    (rgbaToRgb frame nPix).getD (p * 3 + c) 0 = frame.getD (p * 4 + c) 0 := by
  unfold rgbaToRgb
  rw [getD_map_range _ _ _ _ (by omega : p * 3 + c < nPix * 3)]
  have h : (p * 3 + c) / 3 * 4 + (p * 3 + c) % 3 = p * 4 + c := by omega
  rw [h]

theorem maxElementAux_spec (l : List ℚ) :
    ∀ (F : List ℚ) (bi i : Nat) (bv : ℚ),
      F.length = i + l.length →
      (∀ j, l.getD j 0 = F.getD (i + j) 0) →
      bi < i → F.getD bi 0 = bv →
      (∀ j < i, F.getD j 0 ≤ bv) →
      (∀ j < bi, F.getD j 0 < bv) →
      maxElementAux l bi bv i < F.length ∧
      (∀ j < F.length, F.getD j 0 ≤ F.getD (maxElementAux l bi bv i) 0) ∧
      (∀ j < maxElementAux l bi bv i, F.getD j 0 < F.getD (maxElementAux l bi bv i) 0) := by
  induction l with
  | nil =>
    intro F bi i bv hlen htail hbi hbv hle hlt
    rw [List.length_nil, Nat.add_zero] at hlen
    simp only [maxElementAux]
    refine ⟨by omega, ?_, ?_⟩
    · intro j hj
      rw [hbv]
      exact hle j (by omega)
    · intro j hj
      rw [hbv]
      exact hlt j hj
  | cons v rest ih =>
    intro F bi i bv hlen htail hbi hbv hle hlt
    have hv : F.getD i 0 = v := by
      have h0 := htail 0
      rw [List.getD_cons_zero, Nat.add_zero] at h0
      exact h0.symm
    have hlen2 : F.length = (i + 1) + rest.length := by
      rw [hlen, List.length_cons]; omega
    have htail2 : ∀ j, rest.getD j 0 = F.getD ((i + 1) + j) 0 := by
      intro j
      have := htail (j + 1)
      rw [List.getD_cons_succ] at this
      rw [this]
      congr 1
      omega
    simp only [maxElementAux]
    by_cases hc : bv < v
    · rw [if_pos hc]
      refine ih F i (i + 1) v hlen2 htail2 (Nat.lt_succ_self i) hv ?_ ?_
      · intro j hj
        rcases Nat.lt_succ_iff_lt_or_eq.mp hj with h | h
        · exact le_of_lt (lt_of_le_of_lt (hle j h) hc)
        · subst h; rw [hv]
      · intro j hj
        exact lt_of_le_of_lt (hle j hj) hc
    · rw [if_neg hc]
      refine ih F bi (i + 1) bv hlen2 htail2 (Nat.lt_succ_of_lt hbi) hbv ?_ hlt
      intro j hj
      rcases Nat.lt_succ_iff_lt_or_eq.mp hj with h | h
      · exact hle j h
      · subst h; rw [hv]; exact not_lt.mp hc

theorem maxElementIdx_spec (l : List ℚ) :
    (∀ j < l.length, l.getD j 0 ≤ l.getD (maxElementIdx l) 0) ∧
    (∀ j < maxElementIdx l, l.getD j 0 < l.getD (maxElementIdx l) 0) ∧
    (l ≠ [] → maxElementIdx l < l.length) := by
  cases l with
  | nil =>
    refine ⟨?_, ?_, fun h => absurd rfl h⟩
    · intro j hj
      simp at hj
    · intro j hj
      simp [maxElementIdx] at hj
  | cons v rest =>
    have h := maxElementAux_spec rest (v :: rest) 0 1 v
      (by rw [List.length_cons]; omega)
      (by
        intro j
        have : (1 : Nat) + j = j + 1 := by omega
        rw [this, List.getD_cons_succ])
      Nat.one_pos
      (List.getD_cons_zero)
      (by
        intro j hj
        have : j = 0 := by omega
        subst this
        rw [List.getD_cons_zero])
      (by intro j hj; omega)
    have hidx : maxElementIdx (v :: rest) = maxElementAux rest 0 v 1 := rfl
    rw [hidx]
    exact ⟨h.2.1, h.2.2, fun _ => h.1⟩

theorem maxElementAux_lt (l : List ℚ) :
    ∀ (bi i n : Nat) (bv : ℚ), bi < n → i + l.length ≤ n →
      maxElementAux l bi bv i < n := by
  induction l with
  | nil =>
    intro bi i n bv h1 _
    simpa only [maxElementAux] using h1
  | cons v rest ih =>
    intro bi i n bv h1 h2
    rw [List.length_cons] at h2
    simp only [maxElementAux]
    by_cases hc : bv < v
    · rw [if_pos hc]
      exact ih i (i + 1) n v (by omega) (by omega)
    · rw [if_neg hc]
      exact ih bi (i + 1) n bv h1 (by omega)

theorem maxElementIdx_lt (l : List ℚ) (C : Nat) (h1 : 1 ≤ C) (h2 : l.length ≤ C) :
    maxElementIdx l < C := by
  cases l with
  | nil => simpa only [maxElementIdx] using h1
  | cons v rest =>
    rw [List.length_cons] at h2
    exact maxElementAux_lt rest 0 1 C v (by omega) (by omega)

theorem performInference_input_data (s : DLLState) (f : List Nat) :
    (PerformInference s f).2.input_data
      = normLoop (rgbaToRgb f s.nPixels) s.nPixels s.num_channels s.input_data := by
  unfold PerformInference
  rcases hreq : s.infer_request with _ | cm
  · rfl
  · rcases hrun : cm.run
        (normLoop (rgbaToRgb f s.nPixels) s.nPixels s.num_channels s.input_data)
      with _ | out
    · simp [hrun]
    · simp [hrun]

theorem performInference_state_fields (s : DLLState) (f : List Nat) :
    (PerformInference s f).2.available_devices = s.available_devices ∧
    (PerformInference s f).2.infer_request = s.infer_request ∧
    (PerformInference s f).2.num_classes = s.num_classes ∧
    (PerformInference s f).2.input_w = s.input_w ∧
    (PerformInference s f).2.input_h = s.input_h ∧
    (PerformInference s f).2.nPixels = s.nPixels ∧
    (PerformInference s f).2.num_channels = s.num_channels := by
  unfold PerformInference
  rcases hreq : s.infer_request with _ | cm
  · exact ⟨rfl, rfl, rfl, rfl, rfl, rfl, rfl⟩
  · rcases hrun : cm.run
        (normLoop (rgbaToRgb f s.nPixels) s.nPixels s.num_channels s.input_data)
      with _ | out
    · simp [hrun]
    · simp [hrun]

theorem performInference_fst_none (s : DLLState) (f : List Nat)
    (h : s.infer_request = none) : (PerformInference s f).1 = -2 := by
  unfold PerformInference
  rw [h]

theorem performInference_fst_runFail (s : DLLState) (f : List Nat)
    (cm : CompiledModel) (h : s.infer_request = some cm)
    (hr : cm.run (normLoop (rgbaToRgb f s.nPixels) s.nPixels s.num_channels s.input_data)
            = none) :
    (PerformInference s f).1 = -2 := by
  unfold PerformInference
  rw [h]
  simp [hr]

theorem performInference_fst_ok (s : DLLState) (f : List Nat)
    (cm : CompiledModel) (out : List ℚ) (h : s.infer_request = some cm)
    (hr : cm.run (normLoop (rgbaToRgb f s.nPixels) s.nPixels s.num_channels s.input_data)
            = some out) :
    (PerformInference s f).1 = (maxElementIdx (out.take s.num_classes) : Int) := by
  unfold PerformInference
  rw [h]
  simp [hr]

/-! Claim theorems. -/

/-- C1: `LoadModel` returns status 1 when parsing the model file fails; when
parsing succeeds it returns 0 if the reshape to `{1, 3, H, W}` also succeeds,
and 2 if the reshape fails, in which case loading continues (with a
successful compile step) and completes at the model's native shape. -/
theorem C1_loadModel_status (rt : Runtime) (s : DLLState) (path : String)
    (idx : Nat) (dims : Int × Int) :
    (rt.readModel path = none → LoadModel rt s path idx dims = Except.ok (1, s)) ∧
    (∀ m m2 cm, rt.readModel path = some m →
      rt.reshape m [1, 3, dims.2, dims.1] = some m2 →
      rt.compile m2 (s.available_devices.getD idx emptyStr) = some cm →
      ∃ s2, LoadModel rt s path idx dims = Except.ok (0, s2)) ∧
    (∀ m cm, rt.readModel path = some m →
      rt.reshape m [1, 3, dims.2, dims.1] = none →
      rt.compile m (s.available_devices.getD idx emptyStr) = some cm →
      ∃ s2, LoadModel rt s path idx dims = Except.ok (2, s2) ∧
        s2.input_w = cm.inputShape.getD 3 0 ∧
        s2.input_h = cm.inputShape.getD 2 0) := by
  refine ⟨?_, ?_, ?_⟩
  · intro h
    simp only [LoadModel, h]
  · intro m m2 cm hm hr hc
    simp only [LoadModel, reshapeStep, hm, hr, hc]
    exact ⟨_, rfl⟩
  · intro m cm hm hr hc
    simp only [LoadModel, reshapeStep, hm, hr, hc]
    exact ⟨_, rfl, rfl, rfl⟩

/-- C1 witness: on concrete runtimes, a parse failure yields 1 with the state
untouched, a full success yields 0, and a reshape refusal yields 2 with the
native (1×1) shape cached. -/
theorem C1_loadModel_status_witness :
    LoadModel rtParseFail sInit pathW 0 (64, 64) = Except.ok (1, sInit) ∧
    (∃ s2, LoadModel rtOk sInit pathW 0 (64, 64) = Except.ok (0, s2)) ∧
    (∃ s2, LoadModel rtReshapeFail sInit pathW 0 (64, 64) = Except.ok (2, s2) ∧
      s2.input_w = cmTie.inputShape.getD 3 0 ∧
      s2.input_h = cmTie.inputShape.getD 2 0) :=
  ⟨(C1_loadModel_status rtParseFail sInit pathW 0 (64, 64)).1 rfl,
   (C1_loadModel_status rtOk sInit pathW 0 (64, 64)).2.1 mW mW cmTie rfl rfl rfl,
   (C1_loadModel_status rtReshapeFail sInit pathW 0 (64, 64)).2.2 mW cmTie rfl rfl rfl⟩

/-- C5: when `LoadModel` returns 1 (model parse failure), every module-wide
state component observable to subsequent calls retains its value from before
the call. -/
theorem C5_parse_failure_preserves_state (rt : Runtime) (s : DLLState)
    (path : String) (idx : Nat) (dims : Int × Int)
    (h : rt.readModel path = none) :
    LoadModel rt s path idx dims = Except.ok (1, s) ∧
    ∀ r s2, LoadModel rt s path idx dims = Except.ok (r, s2) →
      s2.infer_request = s.infer_request ∧ s2.input_data = s.input_data ∧
      s2.num_classes = s.num_classes ∧ s2.input_w = s.input_w ∧
      s2.input_h = s.input_h ∧ s2.nPixels = s.nPixels ∧
      s2.available_devices = s.available_devices := by
  have h1 : LoadModel rt s path idx dims = Except.ok (1, s) := by
    simp only [LoadModel, h]
  refine ⟨h1, ?_⟩
  intro r s2 h2
  rw [h1] at h2
  simp only [Except.ok.injEq, Prod.mk.injEq] at h2
  rw [← h2.2]
  exact ⟨rfl, rfl, rfl, rfl, rfl, rfl, rfl⟩

/-- C5 witness: a parse failure over the previously loaded state `sTie`
returns 1 and hands back exactly `sTie`. -/
theorem C5_parse_failure_preserves_state_witness :
    rtParseFail.readModel pathW = none ∧
    LoadModel rtParseFail sTie pathW 0 (64, 64) = Except.ok (1, sTie) :=
  ⟨rfl, (C5_parse_failure_preserves_state rtParseFail sTie pathW 0 (64, 64) rfl).1⟩

/-- C10: after every `LoadModel` call returning 0 or 2, the cached width,
height and pixel count come from the compiled model's actual input-tensor
shape (dimensions 3 and 2) with `nPixels = input_w * input_h`, not from the
caller-supplied `inputDims`; in particular a refused reshape compiles the
original (native-shape) model. -/
theorem C10_load_caches_model_shape (rt : Runtime) (s : DLLState)
    (path : String) (idx : Nat) (dims : Int × Int) (m : OVModel)
    (cm : CompiledModel) (hread : rt.readModel path = some m)
    (hcompile : rt.compile (reshapeStep rt m dims).2
        (s.available_devices.getD idx emptyStr) = some cm) :
    ∃ s2, LoadModel rt s path idx dims
        = Except.ok ((reshapeStep rt m dims).1, s2) ∧
      s2.input_w = cm.inputShape.getD 3 0 ∧
      s2.input_h = cm.inputShape.getD 2 0 ∧
      s2.nPixels = s2.input_w * s2.input_h ∧
      s2.num_classes = cm.outputShape.getD 1 0 ∧
      ((reshapeStep rt m dims).1 = 0 ∨ (reshapeStep rt m dims).1 = 2) ∧
      (rt.reshape m [1, 3, dims.2, dims.1] = none →
        (reshapeStep rt m dims).2 = m) := by
  refine ⟨{ s with
      infer_request := some cm
      num_classes := cm.outputShape.getD 1 0
      input_w := cm.inputShape.getD 3 0
      input_h := cm.inputShape.getD 2 0
      nPixels := cm.inputShape.getD 3 0 * cm.inputShape.getD 2 0
      input_data := List.replicate (cm.inputShape.foldl (fun a b => a * b) 1) 0 },
    ?_, rfl, rfl, rfl, rfl, ?_, ?_⟩
  · simp only [LoadModel, hread, hcompile]
  · unfold reshapeStep
    rcases rt.reshape m [1, 3, dims.2, dims.1] with _ | m2
    · exact Or.inr rfl
    · exact Or.inl rfl
  · intro h
    simp only [reshapeStep, h]

/-- C10 witness: a load whose reshape is refused returns status 2 and caches
the native 1×1 shape and 3 classes of the compiled stub model, not the
caller-supplied 64×64. -/
theorem C10_load_caches_model_shape_witness :
    rtReshapeFail.readModel pathW = some mW ∧
    ∃ s2, LoadModel rtReshapeFail sInit pathW 0 (64, 64) = Except.ok (2, s2) ∧
      s2.input_w = 1 ∧ s2.input_h = 1 ∧ s2.nPixels = 1 ∧ s2.num_classes = 3 := by
  obtain ⟨s2, h1, h2, h3, h4, h5, h6, h7⟩ :=
    C10_load_caches_model_shape rtReshapeFail sInit pathW 0 (64, 64) mW cmTie
      rfl rfl
  refine ⟨rfl, s2, h1, ?_, ?_, ?_, ?_⟩
  · rw [h2]; rfl
  · rw [h3]; rfl
  · rw [h4, h2, h3]; rfl
  · rw [h5]; rfl

/-- C6: after `GetDeviceCount` returns `n`, the device list is exactly the
runtime's device list with every name containing the filtered accelerator
substring (`"GNA"`) discarded, in insertion order, `n` is its length, and for
every `i < n`, `GetDeviceName i` is a non-empty string (granted the runtime
reports non-empty device identifiers) not containing the substring. -/
theorem C6_device_registry (rt : Runtime) (s : DLLState)
    (h : ∀ d ∈ rt.devices, 0 < d.length) :
    (GetDeviceCount rt s).2.available_devices
        = rt.devices.filter (fun d => !hasGNA d) ∧
    (GetDeviceCount rt s).1 = (GetDeviceCount rt s).2.available_devices.length ∧
    ∀ i < (GetDeviceCount rt s).1,
      0 < (GetDeviceName (GetDeviceCount rt s).2 i).length ∧
      hasGNA (GetDeviceName (GetDeviceCount rt s).2 i) = false := by
  refine ⟨rfl, rfl, ?_⟩
  intro i hi
  have hlen : i < (rt.devices.filter (fun d => !hasGNA d)).length := hi
  have hgd : GetDeviceName (GetDeviceCount rt s).2 i
      = (rt.devices.filter (fun d => !hasGNA d)).getD i emptyStr := rfl
  rw [hgd, List.getD_eq_getElem _ _ hlen]
  have hmem := List.getElem_mem hlen
  obtain ⟨hmem2, hp⟩ := List.mem_filter.mp hmem
  constructor
  · exact h _ hmem2
  · simpa using hp

/-- C6 witness: on a runtime reporting `["CPU", "GNA", "GPU.0"]` the count is
2, the GNA entry is dropped, and both surfaced names are non-empty and
GNA-free. -/
theorem C6_device_registry_witness :
    (∀ d ∈ rtDevs.devices, 0 < d.length) ∧
    (GetDeviceCount rtDevs sInit).1 = 2 ∧
    0 < (GetDeviceName (GetDeviceCount rtDevs sInit).2 0).length ∧
    hasGNA (GetDeviceName (GetDeviceCount rtDevs sInit).2 0) = false ∧
    0 < (GetDeviceName (GetDeviceCount rtDevs sInit).2 1).length ∧
    hasGNA (GetDeviceName (GetDeviceCount rtDevs sInit).2 1) = false := by
  have h : ∀ d ∈ rtDevs.devices, 0 < d.length := by decide
  have hc := C6_device_registry rtDevs sInit h
  have h0 := hc.2.2 0 (by decide)
  have h1 := hc.2.2 1 (by decide)
  exact ⟨h, by decide, h0.1, h0.2, h1.1, h1.2⟩

/-- C2 counterexample: the claim that a failed inference call does not mutate
the module-wide state is false: a forward-pass failure returns -2, but the
preprocessing writes that already happened have changed the input tensor's
contents (part of the spec's module-wide state `S`). -/
theorem C2_counterexample :
    (PerformInference sFailRun frameSolid).1 = -2 ∧
    (PerformInference sFailRun frameSolid).2.input_data ≠ sFailRun.input_data := by
  constructor
  · exact performInference_fst_runFail sFailRun frameSolid cmFail rfl rfl
  · intro heq
    have h := normLoop_getD (rgbaToRgb frameSolid sFailRun.nPixels)
      sFailRun.nPixels sFailRun.num_channels 0 0 sFailRun.input_data 0
      (by decide) (by decide) (by decide)
    rw [← performInference_input_data sFailRun frameSolid] at h
    rw [heq] at h
    have hv : (rgbaToRgb frameSolid sFailRun.nPixels).getD
        (0 * sFailRun.num_channels + 0) 0 = 255 := by decide
    rw [hv] at h
    norm_num [sFailRun, List.getD_cons_zero] at h

/-- C2 (amended): after a load establishing a class count `C ≥ 1`, every
`PerformInference` call returns a value in `[0, C)` or `-2`, and every
module-wide state component except the input tensor's buffer contents
(which the preprocessing step may already have overwritten when the forward
pass fails) is left unchanged. -/
theorem C2_amended_inference_range (s : DLLState) (frame : List Nat)
    (hC : 1 ≤ s.num_classes) :
    ((PerformInference s frame).1 = -2 ∨
      (0 ≤ (PerformInference s frame).1 ∧
        (PerformInference s frame).1 < (s.num_classes : Int))) ∧
    (PerformInference s frame).2.available_devices = s.available_devices ∧
    (PerformInference s frame).2.infer_request = s.infer_request ∧
    (PerformInference s frame).2.num_classes = s.num_classes ∧
    (PerformInference s frame).2.input_w = s.input_w ∧
    (PerformInference s frame).2.input_h = s.input_h ∧
    (PerformInference s frame).2.nPixels = s.nPixels ∧
    (PerformInference s frame).2.num_channels = s.num_channels := by
  refine ⟨?_, performInference_state_fields s frame⟩
  rcases hreq : s.infer_request with _ | cm
  · exact Or.inl (performInference_fst_none s frame hreq)
  · rcases hrun : cm.run
        (normLoop (rgbaToRgb frame s.nPixels) s.nPixels s.num_channels s.input_data)
      with _ | out
    · exact Or.inl (performInference_fst_runFail s frame cm hreq hrun)
    · refine Or.inr ?_
      rw [performInference_fst_ok s frame cm out hreq hrun]
      constructor
      · exact Int.natCast_nonneg _
      · exact_mod_cast maxElementIdx_lt (out.take s.num_classes) s.num_classes hC
          (by rw [List.length_take]; exact min_le_left _ _)

/-- C2 amended witness: on the loaded 3-class state whose forward pass
throws, the call lands in the `-2` arm of the range disjunction and the
control state (here: the class count) is preserved. -/
theorem C2_amended_inference_range_witness :
    1 ≤ sFailRun.num_classes ∧
    ((PerformInference sFailRun frameSolid).1 = -2 ∨
      (0 ≤ (PerformInference sFailRun frameSolid).1 ∧
        (PerformInference sFailRun frameSolid).1 < (sFailRun.num_classes : Int))) ∧
    (PerformInference sFailRun frameSolid).2.num_classes = sFailRun.num_classes := by
  have h := C2_amended_inference_range sFailRun frameSolid (by decide)
  exact ⟨by decide, h.1, h.2.2.2.1⟩

/-- C3: for every pixel `p < H·W` and channel `c < 3`, `PerformInference`
writes `input[c·H·W + p] = source_rgb[p·3 + c] / 255 = frame[p·4 + c] / 255`
into the cached input tensor storage; the written value lies in `[0, 1]`
for byte-valued input, and a solid-colour frame `(v, v, v)` yields an input
tensor all of whose values equal `v / 255` (rationals model the float32
values exactly here). -/
theorem C3_normalization (s : DLLState) (frame : List Nat) (p c : Nat)
    (h3 : s.num_channels = 3) (hlen : s.input_data.length = 3 * s.nPixels)
    (hp : p < s.nPixels) (hc : c < 3) :
    ((PerformInference s frame).2.input_data).getD (c * s.nPixels + p) 0
        = ((rgbaToRgb frame s.nPixels).getD (p * 3 + c) 0 : ℚ) / 255 ∧
    ((PerformInference s frame).2.input_data).getD (c * s.nPixels + p) 0
        = (frame.getD (p * 4 + c) 0 : ℚ) / 255 ∧
    (frame.getD (p * 4 + c) 0 ≤ 255 →
      0 ≤ ((PerformInference s frame).2.input_data).getD (c * s.nPixels + p) 0 ∧
      ((PerformInference s frame).2.input_data).getD (c * s.nPixels + p) 0 ≤ 1) ∧
    ∀ v : Nat, (∀ q < s.nPixels, ∀ d < 3, frame.getD (q * 4 + d) 0 = v) →
      ((PerformInference s frame).2.input_data).getD (c * s.nPixels + p) 0
        = (v : ℚ) / 255 := by
  have hidx : c * s.nPixels + p < s.input_data.length := by
    rw [hlen]
    have h2 : c * s.nPixels ≤ 2 * s.nPixels :=
      Nat.mul_le_mul_right _ (by omega)
    omega
  have hkey := normLoop_getD (rgbaToRgb frame s.nPixels) s.nPixels s.num_channels
    p c s.input_data 0 hp (by rw [h3]; exact hc) hidx
  rw [← performInference_input_data s frame] at hkey
  rw [h3] at hkey
  have hfr : (rgbaToRgb frame s.nPixels).getD (p * 3 + c) 0
      = frame.getD (p * 4 + c) 0 :=
    rgbaToRgb_getD frame s.nPixels p c hp hc
  refine ⟨hkey, ?_, ?_, ?_⟩
  · rw [hkey, hfr]
  · intro hv
    constructor
    · rw [hkey]
      positivity
    · rw [hkey, hfr, div_le_one (by norm_num)]
      exact_mod_cast hv
  · intro v hsolid
    rw [hkey, hfr, hsolid p hp c hc]

/-- C3 witness: on the loaded 1×1 state with frame `[10, 20, 30, 40]`, the
green channel (c = 1) of the single pixel is written as `20 / 255 = 4/51`. -/
theorem C3_normalization_witness :
    sTie.num_channels = 3 ∧ sTie.input_data.length = 3 * sTie.nPixels ∧
    ((PerformInference sTie frameW).2.input_data).getD (1 * sTie.nPixels + 0) 0
        = (frameW.getD (0 * 4 + 1) 0 : ℚ) / 255 ∧
    ((PerformInference sTie frameW).2.input_data).getD (1 * sTie.nPixels + 0) 0
        = 4 / 51 := by
  have h := (C3_normalization sTie frameW 0 1 rfl rfl (by decide) (by decide)).2.1
  refine ⟨rfl, rfl, h, ?_⟩
  rw [h]
  norm_num [frameW]

/-- C4: on a successful inference, `PerformInference` returns the zero-based
index of the maximum element of the `C` output logits, with ties resolving to
the lowest index: every logit is at most the logit at the returned index, and
every logit strictly before it is strictly smaller. -/
theorem C4_argmax (s : DLLState) (frame : List Nat) (cm : CompiledModel)
    (out : List ℚ) (hreq : s.infer_request = some cm)
    (hrun : cm.run
        (normLoop (rgbaToRgb frame s.nPixels) s.nPixels s.num_channels s.input_data)
      = some out) :
    (PerformInference s frame).1 = (maxElementIdx (out.take s.num_classes) : Int) ∧
    (∀ j < (out.take s.num_classes).length,
      (out.take s.num_classes).getD j 0
        ≤ (out.take s.num_classes).getD (maxElementIdx (out.take s.num_classes)) 0) ∧
    (∀ j < maxElementIdx (out.take s.num_classes),
      (out.take s.num_classes).getD j 0
        < (out.take s.num_classes).getD (maxElementIdx (out.take s.num_classes)) 0) ∧
    (out.take s.num_classes ≠ [] →
      maxElementIdx (out.take s.num_classes) < (out.take s.num_classes).length) := by
  have h := maxElementIdx_spec (out.take s.num_classes)
  exact ⟨performInference_fst_ok s frame cm out hreq hrun, h.1, h.2.1, h.2.2⟩

/-- C4 witness: with the stub model whose output is the tie vector
`[0.5, 0.5, 0.5]`, the returned class index is 0 (lowest-index maximum). -/
theorem C4_argmax_witness :
    sTie.infer_request = some cmTie ∧
    (PerformInference sTie frameW).1 = 0 := by
  have h := C4_argmax sTie frameW cmTie [1/2, 1/2, 1/2] rfl rfl
  refine ⟨rfl, ?_⟩
  rw [h.1]
  norm_num [sTie, List.take, maxElementIdx, maxElementAux]

/-- C7 counterexample: with class count 0 and a succeeding forward pass the
call returns `std::distance` over an empty `max_element` range, i.e. 0 — not
the claimed sentinel -1. -/
theorem C7_counterexample :
    sZeroC.num_classes = 0 ∧
    (PerformInference sZeroC frameW).1 = 0 ∧
    (PerformInference sZeroC frameW).1 ≠ -1 := by
  have h := performInference_fst_ok sZeroC frameW cmTwo [2, 1] rfl rfl
  refine ⟨rfl, ?_, ?_⟩
  · rw [h]
    norm_num [sZeroC, maxElementIdx]
  · rw [h]
    norm_num [sZeroC, maxElementIdx]

/-- C7 (amended): the -1 sentinel never escapes `PerformInference`; when the
loaded class count is 0 the call returns 0 (the distance over the empty
`max_element` range) on a successful forward pass, or -2 on a throw. -/
theorem C7_amended_zero_classes (s : DLLState) (frame : List Nat) :
    (PerformInference s frame).1 ≠ -1 ∧
    (s.num_classes = 0 →
      (PerformInference s frame).1 = 0 ∨ (PerformInference s frame).1 = -2) := by
  rcases hreq : s.infer_request with _ | cm
  · rw [performInference_fst_none s frame hreq]
    exact ⟨by norm_num, fun _ => Or.inr rfl⟩
  · rcases hrun : cm.run
        (normLoop (rgbaToRgb frame s.nPixels) s.nPixels s.num_channels s.input_data)
      with _ | out
    · rw [performInference_fst_runFail s frame cm hreq hrun]
      exact ⟨by norm_num, fun _ => Or.inr rfl⟩
    · rw [performInference_fst_ok s frame cm out hreq hrun]
      constructor
      · have := Int.natCast_nonneg (maxElementIdx (out.take s.num_classes))
        omega
      · intro hC
        rw [hC]
        norm_num [maxElementIdx]

/-- C7 amended witness: on the concrete zero-class state the call returns 0. -/
theorem C7_amended_zero_classes_witness :
    sZeroC.num_classes = 0 ∧
    ((PerformInference sZeroC frameW).1 = 0 ∨
      (PerformInference sZeroC frameW).1 = -2) :=
  ⟨rfl, (C7_amended_zero_classes sZeroC frameW).2 rfl⟩

/-- C8 counterexample: a failure of the unguarded `compile_model` step makes
`LoadModel` propagate the error across the export surface instead of
flattening it to a status code, falsifying the claim that every internal
failure of the four exports is captured at the boundary. -/
theorem C8_counterexample :
    LoadModel rtCompileFail sTie pathW 0 (64, 64) = Except.error () := rfl

/-- C8 (amended): `PerformInference` flattens every internal failure to an
integer (-2 or a non-negative index), and so do the parse/reshape failure
paths of `LoadModel` (statuses 1 and 2); but `LoadModel` propagates an
uncaught error exactly when parsing succeeded and the unguarded compile step
threw. -/
theorem C8_amended_error_flattening (rt : Runtime) (s : DLLState)
    (path : String) (idx : Nat) (dims : Int × Int) (frame : List Nat) :
    ((PerformInference s frame).1 = -2 ∨ 0 ≤ (PerformInference s frame).1) ∧
    (LoadModel rt s path idx dims = Except.error () ↔
      ∃ m, rt.readModel path = some m ∧
        rt.compile (reshapeStep rt m dims).2
          (s.available_devices.getD idx emptyStr) = none) := by
  constructor
  · rcases hreq : s.infer_request with _ | cm
    · exact Or.inl (performInference_fst_none s frame hreq)
    · rcases hrun : cm.run
          (normLoop (rgbaToRgb frame s.nPixels) s.nPixels s.num_channels s.input_data)
        with _ | out
      · exact Or.inl (performInference_fst_runFail s frame cm hreq hrun)
      · refine Or.inr ?_
        rw [performInference_fst_ok s frame cm out hreq hrun]
        exact Int.natCast_nonneg _
  · constructor
    · intro h
      rcases hm : rt.readModel path with _ | m
      · simp only [LoadModel, hm] at h
        exact Except.noConfusion h
      · refine ⟨m, rfl, ?_⟩
        rcases hcomp : rt.compile (reshapeStep rt m dims).2
            (s.available_devices.getD idx emptyStr) with _ | cm
        · rfl
        · simp only [LoadModel, hm, hcomp] at h
          exact Except.noConfusion h
    · rintro ⟨m, hm, hcomp⟩
      simp only [LoadModel, hm, hcomp]

/-- C8 amended witness: on a runtime whose compile step throws, `LoadModel`
surfaces the error. -/
theorem C8_amended_error_flattening_witness :
    LoadModel rtCompileFail sInit pathW 0 (64, 64) = Except.error () :=
  (C8_amended_error_flattening rtCompileFail sInit pathW 0 (64, 64)
    frameW).2.mpr ⟨mW, rfl, rfl⟩

/-- C9: the alpha channel has no influence: two frames with byte-identical
RGB components (bytes at indices `p·4 + c`, `c < 3`, for every pixel
`p < nPixels`) and arbitrary alpha bytes produce the same `PerformInference`
result (class index and state). -/
theorem C9_alpha_independence (s : DLLState) (f1 f2 : List Nat)
    (h : ∀ p < s.nPixels, ∀ c < 3,
      f1.getD (p * 4 + c) 0 = f2.getD (p * 4 + c) 0) :
    PerformInference s f1 = PerformInference s f2 := by
  have hrgb : rgbaToRgb f1 s.nPixels = rgbaToRgb f2 s.nPixels := by
    unfold rgbaToRgb
    apply List.map_congr_left
    intro i hi
    rw [List.mem_range] at hi
    exact h (i / 3) (by omega) (i % 3) (by omega)
  unfold PerformInference
  rw [hrgb]

/-- C9 witness: `frameW` and `frameAlpha` differ only in the alpha byte and
yield identical inference results. -/
theorem C9_alpha_independence_witness :
    (∀ p < sTie.nPixels, ∀ c < 3,
      frameW.getD (p * 4 + c) 0 = frameAlpha.getD (p * 4 + c) 0) ∧
    PerformInference sTie frameW = PerformInference sTie frameAlpha := by
  have h : ∀ p < sTie.nPixels, ∀ c < 3,
      frameW.getD (p * 4 + c) 0 = frameAlpha.getD (p * 4 + c) 0 := by decide
  exact ⟨h, C9_alpha_independence sTie frameW frameAlpha h⟩

end DLL
